import Mathlib

/-
  Verification of the natural-language specification of the
  chuckpreslar/cartographer repository (Go) against a shallow embedding
  of its source.

  The repository contains the current implementation (the block of
  src/cartographer.go that exposes `Initialize`) together with
  near-duplicate historical variants (src/unnamed/part_000 .. part_002).
  Definitions suffixed `Go` embed the current code in src/cartographer.go
  (lines 214-571); definitions suffixed `Old` embed the historical variant
  in src/unnamed/part_002 (lines 1-345), which the spec also draws on.

  Modelling conventions:
  - reflect.Kind is the enumeration GoKind; the dynamic value stored in an
    `interface\x7b\x7d` scanned from a row is GoValue (a nil interface is
    GoValue.null).
  - floating-point values are modelled as rationals: no claim depends on
    binary rounding, only on which coercion branch is taken.
  - a Go struct is a Record: a list of fields, each carrying its name, its
    tag value for the configured struct-tag label (field.Tag.Get(structTag);
    "" when the annotation is empty or absent), its reflect.Kind, whether
    reflect allows setting it (CanSet: exported field of an addressable
    struct), and its current value.
  - a Go map[string]string is an association list with overwrite-on-insert
    (mapInsert); indexing a missing key yields the zero value "", as in Go.
  - a Go panic is a distinct constructor (Outcome.panicked / GoResult.panicked)
    that aborts the whole call, as opposed to an error return value.
  - a hook (type Hook in the source) is a Go closure over mutable state
    invoked once per row; it is modelled as a function of its invocation
    count (the row index) and the replica, returning either an error or the
    (possibly mutated) replica.  Go hooks mutate through the reflect.Value
    pointer; returning the record models that mutation.
  - a cursor (interface ScannableRows: Next / Columns / Scan) is modelled by
    the list of outcomes its calls produce: the Columns result and, for each
    row Next yields, the Scan outcome (an error, or the values placed in the
    row buffer; missing slots stay at the nil interface, i.e. GoValue.null).
-/

/-- reflect.Kind of a struct field, restricted to the kinds the claims exercise.
invalidK is the Kind of the zero reflect.Value returned by FieldByName on a
missing name. -/
inductive GoKind
| stringK | intK | int8K | int16K | int32K | int64K | uintK
| float32K | float64K | boolK | structK | sliceK | invalidK
deriving DecidableEq, Repr

/-- Dynamic value held in a scanned interface slot. -/
inductive GoValue
| str (s : String)
| bytes (s : String)
| goInt (n : Int)
| goInt16 (n : Int)
| goInt32 (n : Int)
| goInt64 (n : Int)
| goFloat32 (q : Rat)
| goFloat64 (q : Rat)
| boolean (b : Bool)
| structVal (id : String)
| null
deriving DecidableEq, Repr

/-- Value currently stored in a struct field. -/
inductive FieldVal
| vstr (s : String)
| vint (n : Int)
| vfloat (q : Rat)
| vbool (b : Bool)
| vstruct (v : GoValue)
| vslice
| vinvalid
deriving DecidableEq, Repr

/-- One struct field: name, tag value for the configured label, kind,
settability, current value. -/
structure GoField where
  name : String
  tag : String
  kind : GoKind
  canSet : Bool
  value : FieldVal
deriving DecidableEq, Repr

/-- A Go struct value (ordered field list). -/
abbrev Record := List GoField

/-- The zero reflect.Value produced by FieldByName when no field matches:
Kind is Invalid and CanSet is false. -/
def invalidField : GoField :=
  { name := "", tag := "", kind := .invalidK, canSet := false, value := .vinvalid }

/-- reflect.Value.FieldByName: first field with the given name, or the
invalid value. -/
def fieldByName : Record → String → GoField
| [], _ => invalidField
| f :: rest, n => if f.name = n then f else fieldByName rest n

/-- Writing a field back into the struct it was taken from (reflection
mutates the field in place; we return the updated record). -/
def setField : Record → String → GoField → Record
| [], _, _ => []
| g :: rest, n, f => if g.name = n then f :: rest else g :: setField rest n f

/-- Zero value of each kind (reflect.New zero-initializes the replica). -/
def zeroVal : GoKind → FieldVal
| .stringK => .vstr ""
| .intK => .vint 0
| .int8K => .vint 0
| .int16K => .vint 0
| .int32K => .vint 0
| .int64K => .vint 0
| .uintK => .vint 0
| .float32K => .vfloat 0
| .float64K => .vfloat 0
| .boolK => .vbool false
| .structK => .vstruct .null
| .sliceK => .vslice
| .invalidK => .vinvalid

/-- reflect.New(typ).Elem(): same shape, every field zero-valued. -/
def zeroReplica (r : Record) : Record :=
  r.map (fun f => { f with value := zeroVal f.kind })

/-- Association-list lookup used to model Go map reads. -/
def lookupStr : List (String × String) → String → Option String
| [], _ => none
| p :: rest, k => if p.1 = k then some p.2 else lookupStr rest k

/-- Removing every binding of a key (helper for overwrite-on-insert). -/
def removeKey : List (String × String) → String → List (String × String)
| [], _ => []
| p :: rest, k => if p.1 = k then removeKey rest k else p :: removeKey rest k

/-- Go map assignment m[k] = v: overwrites any previous binding of k. -/
def mapInsert (m : List (String × String)) (k v : String) : List (String × String) :=
  (k, v) :: removeKey m k

/-- The pair of per-type maps held by a Cartographer
(fieldsToColumns / columnsToFields). -/
structure DescMaps where
  fieldsToColumns : List (String × String)
  columnsToFields : List (String × String)
deriving DecidableEq, Repr

/-- One iteration of the field loop of DiscoverType / cacheType
(src/cartographer.go lines 261-273): a field whose tag value is non-empty
is inserted into both maps, others are skipped. -/
def cacheStep (ms : DescMaps) (f : GoField) : DescMaps :=
  if f.tag = "" then ms
  else { fieldsToColumns := mapInsert ms.fieldsToColumns f.name f.tag,
         columnsToFields := mapInsert ms.columnsToFields f.tag f.name }

/-- The field loop itself, in declared field order. -/
def cacheAux : List GoField → DescMaps → DescMaps
| [], ms => ms
| f :: rest, ms => cacheAux rest (cacheStep ms f)

/-- Building the Type Descriptor for a type, as DiscoverType does on a cache
miss (src/cartographer.go lines 254-274).  The descriptor is a pure function
of the type, so the cache (which only memoizes this computation) is not
modelled separately. -/
def cacheType (flds : Record) : DescMaps := cacheAux flds ⟨[], []⟩

/-- The sample value handed to Map / Sync / ColumnsFor: either a struct
(possibly behind a pointer) or a value of any other kind, carrying the text
%T would print for it. -/
inductive Sample
| structS (isPtr : Bool) (record : Record)
| scalarS (typeName : String)
deriving Repr

/-- Error text of DiscoverType (src/cartographer.go lines 249-250; note the
doubled space produced by the string concatenation in the source). -/
def notAStructMsg (typeName : String) : String :=
  "Expected a struct " ++ " to be passed, received " ++ typeName ++ "."

/-- DiscoverType (src/cartographer.go lines 241-277): dereference a pointer,
fail unless the underlying kind is a struct, otherwise yield the struct type
(its field list). -/
def discoverType : Sample → Except String Record
| .structS _ rec => .ok rec
| .scalarS t => .error (notAStructMsg t)

/-- Result of a coercion helper: Go value or panic (the parse helpers use
unchecked type assertions, which panic on mismatch). -/
inductive Parsed (α : Type)
| ok (a : α)
| panicked (msg : String)
deriving DecidableEq, Repr

/-- Result of a function returning (value, error) that may also panic. -/
inductive Outcome (α : Type)
| ok (a : α)
| goError (msg : String)
| panicked (msg : String)
deriving DecidableEq, Repr

/-- Whole-call result: normal return value or unrecovered panic. -/
inductive GoResult (α : Type)
| ret (a : α)
| panicked (msg : String)
deriving DecidableEq, Repr

/-- Numeric value of a digit run. -/
def digitsVal (ds : List Char) : Nat :=
  ds.foldl (fun a c => a * 10 + (c.toNat - 48)) 0

/-- Base-10 floating-point literal parser modelling strconv.ParseFloat:
optional sign, digits with optional fractional part (at least one digit in
the mantissa), optional exponent.  none models a parse error. -/
def parseFloatLit (s : String) : Option Rat :=
  let cs := s.data
  let sign : Rat := match cs with | '-' :: _ => -1 | _ => 1
  let cs1 := match cs with
    | '-' :: r => r
    | '+' :: r => r
    | r => r
  let ip := cs1.takeWhile Char.isDigit
  let cs2 := cs1.dropWhile Char.isDigit
  let fp := match cs2 with | '.' :: r => r.takeWhile Char.isDigit | _ => []
  let cs3 := match cs2 with | '.' :: r => r.dropWhile Char.isDigit | r => r
  if ip.isEmpty ∧ fp.isEmpty then none
  else
    let mant : Rat := (digitsVal ip : Rat) + (digitsVal fp : Rat) / ((10 : Rat) ^ fp.length)
    match cs3 with
    | [] => some (sign * mant)
    | c :: r =>
      if c = 'e' ∨ c = 'E' then
        let epos : Bool := match r with | '-' :: _ => false | _ => true
        let r1 := match r with
          | '-' :: r2 => r2
          | '+' :: r2 => r2
          | r2 => r2
        let ed := r1.takeWhile Char.isDigit
        let r2 := r1.dropWhile Char.isDigit
        if ed.isEmpty ∨ ¬ r2.isEmpty then none
        else some (sign * mant * (if epos then (10 : Rat) ^ digitsVal ed
                                  else ((10 : Rat) ^ digitsVal ed)⁻¹))
      else none

/-- parseString (src/cartographer.go lines 521-523): fmt.Sprintf("%s", o).
Text-like sources print their contents; the other verbs are modelled by the
%!s notice fmt actually emits for a value without a string form. -/
def parseString : GoValue → String
| .str s => s
| .bytes s => s
| .goInt n => "%!s(int=" ++ toString n ++ ")"
| .goInt16 n => "%!s(int16=" ++ toString n ++ ")"
| .goInt32 n => "%!s(int32=" ++ toString n ++ ")"
| .goInt64 n => "%!s(int64=" ++ toString n ++ ")"
| .goFloat32 q => "%!s(float32=" ++ toString q ++ ")"
| .goFloat64 q => "%!s(float64=" ++ toString q ++ ")"
| .boolean b => "%!s(bool=" ++ toString b ++ ")"
| .structVal id => "\x7b" ++ id ++ "\x7d"
| .null => "%!s(<nil>)"

/-- Panic message of an unchecked type assertion o.(T). -/
def assertFailMsg (target : String) : String :=
  "interface conversion: interface is not " ++ target

/-- parseInt (src/cartographer.go lines 525-536): widen int, int16, int32;
the default branch is the unchecked assertion o.(int64), which panics for
every other dynamic type. -/
def parseInt : GoValue → Parsed Int
| .goInt n => .ok n
| .goInt16 n => .ok n
| .goInt32 n => .ok n
| .goInt64 n => .ok n
| _ => .panicked (assertFailMsg "int64")

/-- parseFloat (src/cartographer.go lines 538-549): a byte slice is printed
and fed to strconv.ParseFloat with the parse error discarded (a malformed
literal therefore yields 0); float32 widens; the default branch is the
unchecked assertion o.(float64). -/
def parseFloat : GoValue → Parsed Rat
| .bytes s => .ok ((parseFloatLit s).getD 0)
| .goFloat32 q => .ok q
| .goFloat64 q => .ok q
| _ => .panicked (assertFailMsg "float64")

/-- parseBool (src/cartographer.go lines 551-553): the unchecked assertion
o.(bool), which panics unless the source already is a boolean. -/
def parseBool : GoValue → Parsed Bool
| .boolean b => .ok b
| _ => .panicked (assertFailMsg "bool")

/-- parseStruct (src/cartographer.go lines 555-557): reflect.ValueOf(o),
the source value passed through unchanged. -/
def parseStruct (o : GoValue) : GoValue := o

/-- setFieldValue (src/cartographer.go lines 479-502): nil source is a
no-op; a field that cannot be set is an error; otherwise the switch over the
field kind dispatches to the parse helpers, and a kind outside the switch
leaves the field untouched with no error. -/
def setFieldValue (field : GoField) (value : GoValue) : Outcome GoField :=
  if value = GoValue.null then .ok field
  else if field.canSet then
    match field.kind with
    | .stringK => .ok { field with value := .vstr (parseString value) }
    | .intK =>
      match parseInt value with
      | .ok n => .ok { field with value := .vint n }
      | .panicked m => .panicked m
    | .float32K =>
      match parseFloat value with
      | .ok q => .ok { field with value := .vfloat q }
      | .panicked m => .panicked m
    | .float64K =>
      match parseFloat value with
      | .ok q => .ok { field with value := .vfloat q }
      | .panicked m => .panicked m
    | .boolK =>
      match parseBool value with
      | .ok b => .ok { field with value := .vbool b }
      | .panicked m => .panicked m
    | .structK => .ok { field with value := .vstruct (parseStruct value) }
    | _ => .ok field
  else .goError "Failed to set field"

/-- A post-population hook (type Hook): a closure invoked once per row.  The
Nat argument is its invocation count (= the row index), standing for the
state a Go closure may carry. -/
def Hook := Nat → Record → Except String Record

/-- Running the registered hooks in registration order, stopping at the
first failure (hook loops in Map, Sync and CreateReplica). -/
def runHooks : List Hook → Nat → Record → Except String Record
| [], _, r => .ok r
| h :: hs, idx, r =>
  match h idx r with
  | .error e => .error e
  | .ok r2 => runHooks hs idx r2

/-- The external cursor: the Columns() result and, per row yielded by
Next(), the Scan outcome. -/
structure Cursor where
  columns : Except String (List String)
  rows : List (Except String (List GoValue))

/-- Body of the inner column loop of the current Map and Sync
(src/cartographer.go lines 411-418 and 463-470): resolve the owning field of
one buffer slot through columnsToFields (a missing column yields the zero
string, hence the invalid field) and apply setFieldValue. -/
def applyColumnGo (ctf : List (String × String)) (r : Record) (col : String)
    (v : GoValue) : Outcome Record :=
  let fname := (lookupStr ctf col).getD ""
  match setFieldValue (fieldByName r fname) v with
  | .ok f => .ok (setField r fname f)
  | .goError e => .goError e
  | .panicked m => .panicked m

/-- The inner column loop of the current Map and Sync over a whole row
buffer.  On a setFieldValue error the fields already written stay written
(reflection mutates in place) and the error is returned. -/
def applyRowGo (ctf : List (String × String)) :
    List String → List GoValue → Record → GoResult (Record × Option String)
| [], _, r => .ret (r, none)
| c :: cs, vs, r =>
  match applyColumnGo ctf r c (vs.headD GoValue.null) with
  | .ok r2 => applyRowGo ctf cs vs.tail r2
  | .goError e => .ret (r, some e)
  | .panicked m => .panicked m

/-- The row loop of the current Map (src/cartographer.go lines 448-474).
Each row: scan (failure returns the accumulated results with the error),
CreateReplica(o, hooks...) — DiscoverType, a zero replica, then the hooks,
BEFORE any field is populated (lines 281-297) —, then the column loop, then
append the replica.  All abort paths return the results accumulated so far
together with the error. -/
def mapLoopGo (o : Sample) (hooks : List Hook) (cols : List String) :
    List (Except String (List GoValue)) → Nat → List Record →
    GoResult (List Record × Option String)
| [], _, acc => .ret (acc, none)
| .error e :: _, _, acc => .ret (acc, some e)
| .ok vals :: rest, idx, acc =>
  match discoverType o with
  | .error e => .ret (acc, some e)
  | .ok shape =>
    match runHooks hooks idx (zeroReplica shape) with
    | .error e => .ret (acc, some e)
    | .ok replica =>
      match applyRowGo (cacheType shape).columnsToFields cols vals replica with
      | .panicked m => .panicked m
      | .ret (_, some e) => .ret (acc, some e)
      | .ret (r2, none) => mapLoopGo o hooks cols rest (idx + 1) (acc ++ [r2])

/-- Map of the current implementation (src/cartographer.go lines 440-477).
Note there is no struct check before the row loop: DiscoverType only runs
inside CreateReplica, once a row exists. -/
def mapGo (rows : Cursor) (o : Sample) (hooks : List Hook) :
    GoResult (List Record × Option String) :=
  match rows.columns with
  | .error e => .ret ([], some e)
  | .ok cols => mapLoopGo o hooks cols rows.rows 0 []

/-- Body of the inner column loop of the historical Map
(src/unnamed/part_002 lines 251-272): the settability GUARD silently skips a
field that cannot be set (including the invalid field of an unmatched
column), there is no nil-value check, and an unhandled kind is skipped. -/
def applyColumnOld (ctf : List (String × String)) (r : Record) (col : String)
    (v : GoValue) : GoResult Record :=
  let fname := (lookupStr ctf col).getD ""
  let field := fieldByName r fname
  if field.canSet then
    match field.kind with
    | .stringK => .ret (setField r fname { field with value := .vstr (parseString v) })
    | .intK =>
      match parseInt v with
      | .ok n => .ret (setField r fname { field with value := .vint n })
      | .panicked m => .panicked m
    | .float32K =>
      match parseFloat v with
      | .ok q => .ret (setField r fname { field with value := .vfloat q })
      | .panicked m => .panicked m
    | .float64K =>
      match parseFloat v with
      | .ok q => .ret (setField r fname { field with value := .vfloat q })
      | .panicked m => .panicked m
    | .boolK =>
      match parseBool v with
      | .ok b => .ret (setField r fname { field with value := .vbool b })
      | .panicked m => .panicked m
    | .structK => .ret (setField r fname { field with value := .vstruct (parseStruct v) })
    | _ => .ret r
  else .ret r

/-- The historical inner column loop over a whole row buffer. -/
def applyRowOld (ctf : List (String × String)) :
    List String → List GoValue → Record → GoResult Record
| [], _, r => .ret r
| c :: cs, vs, r =>
  match applyColumnOld ctf r c (vs.headD GoValue.null) with
  | .ret r2 => applyRowOld ctf cs vs.tail r2
  | .panicked m => .panicked m

/-- The row loop of the historical Map (src/unnamed/part_002 lines 229-282):
scan, CreateReplica(o) (no hooks there), populate, THEN the hooks on the
populated replica, then append.  Abort paths return the accumulated results
with the error (naked return of the named results). -/
def mapLoopOld (o : Sample) (hooks : List Hook) (cols : List String) :
    List (Except String (List GoValue)) → Nat → List Record →
    GoResult (List Record × Option String)
| [], _, acc => .ret (acc, none)
| .error e :: _, _, acc => .ret (acc, some e)
| .ok vals :: rest, idx, acc =>
  match discoverType o with
  | .error e => .ret (acc, some e)
  | .ok shape =>
    match applyRowOld (cacheType shape).columnsToFields cols vals (zeroReplica shape) with
    | .panicked m => .panicked m
    | .ret r2 =>
      match runHooks hooks idx r2 with
      | .error e => .ret (acc, some e)
      | .ok r3 => mapLoopOld o hooks cols rest (idx + 1) (acc ++ [r3])

/-- Map of the historical variant (src/unnamed/part_002 lines 220-285). -/
def mapOld (rows : Cursor) (o : Sample) (hooks : List Hook) :
    GoResult (List Record × Option String) :=
  match rows.columns with
  | .error e => .ret ([], some e)
  | .ok cols => mapLoopOld o hooks cols rows.rows 0 []

/-- ColumnsFor (src/cartographer.go lines 301-313): DiscoverType, then the
keys of columnsToFields (Go map iteration order is unspecified; the key list
in descriptor order stands for it, and the theorems only use it as a set). -/
def ColumnsFor (o : Sample) : Except String (List String) :=
  match discoverType o with
  | .error e => .error e
  | .ok shape => .ok ((cacheType shape).columnsToFields.map (fun p => p.1))

/-- FieldsFor (src/cartographer.go lines 317-329): keys of fieldsToColumns. -/
def FieldsFor (o : Sample) : Except String (List String) :=
  match discoverType o with
  | .error e => .error e
  | .ok shape => .ok ((cacheType shape).fieldsToColumns.map (fun p => p.1))

/-- FieldValueMapFor (src/unnamed/part_002 lines 113-133) restricted to a
record already known to be a struct: for every key of fieldsToColumns, the
current value of the field of that name. -/
def fieldValueMapFor (rec : Record) : List (String × FieldVal) :=
  (cacheType rec).fieldsToColumns.map (fun p => (p.1, (fieldByName rec p.1).value))

/-- Lookup in a field-value snapshot. -/
def lookupVal : List (String × FieldVal) → String → Option FieldVal
| [], _ => none
| p :: rest, k => if p.1 = k then some p.2 else lookupVal rest k

/-- reflect.Zero(reflect.TypeOf(value)) for a stored field value. -/
def zeroOfVal : FieldVal → FieldVal
| .vstr _ => .vstr ""
| .vint _ => .vint 0
| .vfloat _ => .vfloat 0
| .vbool _ => .vbool false
| .vstruct _ => .vstruct .null
| .vslice => .vslice
| .vinvalid => .vinvalid

/-- Error texts of the two Sync variants. -/
def syncRowCountMsg : String :=
  "Sync expected one and only one result to be returned from Map."

/-- Pointer-check error of the current Sync. -/
def syncPtrMsg : String := "Sync expected a pointer to be passed for manipulation."

/-- Write-back loop of the historical Sync (src/unnamed/part_002 lines
193-205): for every synced entry whose value differs from the original
snapshot and is not the zero value of its type, set the field of the
caller's record, failing if it cannot be set (a record passed by value is
not addressable, so CanSet is false on all its fields). -/
def syncWriteback (isPtr : Bool) (original : List (String × FieldVal)) :
    List (String × FieldVal) → Record → Record × Option String
| [], rec => (rec, none)
| (key, value) :: restE, rec =>
  if lookupVal original key ≠ some value ∧ value ≠ zeroOfVal value then
    let field := fieldByName rec key
    if field.canSet && isPtr then
      syncWriteback isPtr original restE (setField rec key { field with value := value })
    else (rec, some ("Sync failed to set field " ++ key ++ "."))
  else syncWriteback isPtr original restE rec

/-- Sync of the historical variant (src/unnamed/part_002 lines 161-208):
delegate to Map, assert exactly one result, snapshot/diff, write back.  The
returned triple is (final state of the caller's record as a Sample, the
result value, the error). -/
def syncOld (rows : Cursor) (o : Sample) (hooks : List Hook) :
    GoResult (Sample × Option Record × Option String) :=
  match mapOld rows o hooks with
  | .panicked m => .panicked m
  | .ret (_, some e) => .ret (o, none, some e)
  | .ret (results, none) =>
    if results.length ≠ 1 then .ret (o, none, some syncRowCountMsg)
    else
      match o with
      | .scalarS t => .ret (o, none, some (notAStructMsg t))
      | .structS isPtr rec =>
        let result := results.headD []
        let original := fieldValueMapFor rec
        let synced := fieldValueMapFor result
        match syncWriteback isPtr original synced rec with
        | (rec2, some e) => .ret (.structS isPtr rec2, none, some e)
        | (rec2, none) => .ret (.structS isPtr rec2, some rec2, none)

/-- Row loop of the current Sync (src/cartographer.go lines 404-425): every
row is applied to the caller's record in place through setFieldValue, then
the hooks run on the caller's record; there is no row-count check of any
kind. -/
def syncLoopGo (ctf : List (String × String)) (cols : List String) (hooks : List Hook) :
    List (Except String (List GoValue)) → Nat → Record → GoResult (Record × Option String)
| [], _, rec => .ret (rec, none)
| .error e :: _, _, rec => .ret (rec, some e)
| .ok vals :: rest, idx, rec =>
  match applyRowGo ctf cols vals rec with
  | .panicked m => .panicked m
  | .ret (rec2, some e) => .ret (rec2, some e)
  | .ret (rec2, none) =>
    match runHooks hooks idx rec2 with
    | .error e => .ret (rec2, some e)
    | .ok rec3 => syncLoopGo ctf cols hooks rest (idx + 1) rec3

/-- Sync of the current implementation (src/cartographer.go lines 382-428):
DiscoverType, pointer check, Columns, then the row loop above.  The returned
pair is (final state of the caller's record, the error). -/
def syncGo (rows : Cursor) (o : Sample) (hooks : List Hook) :
    GoResult (Sample × Option String) :=
  match o with
  | .scalarS t => .ret (.scalarS t, some (notAStructMsg t))
  | .structS isPtr rec =>
    if isPtr then
      match rows.columns with
      | .error e => .ret (.structS isPtr rec, some e)
      | .ok cols =>
        match syncLoopGo (cacheType rec).columnsToFields cols hooks rows.rows 0 rec with
        | .panicked m => .panicked m
        | .ret (rec2, errOpt) => .ret (.structS isPtr rec2, errOpt)
    else .ret (.structS isPtr rec, some syncPtrMsg)

/-- The annotated fields of a type: those whose tag value is non-empty.
This is the spec-side notion the discovery claims quantify over. -/
def annotated : List GoField → List GoField
| [] => []
| f :: rest => if f.tag = "" then annotated rest else f :: annotated rest

/-- The exact-inverse invariant claimed for the two descriptor maps. -/
def mapsInverse (m1 m2 : List (String × String)) : Prop :=
  ∀ k v, lookupStr m1 k = some v ↔ lookupStr m2 v = some k

/- Concrete fixtures (the faker struct of cartographer_test.go, and a type
with a duplicated annotation label). -/

/-- The faker test struct with a given Id value: one exported field Id
tagged db:"id". -/
def fakerWith (n : Int) : Record :=
  [{ name := "Id", tag := "id", kind := .intK, canSet := true, value := .vint n }]

/-- The faker test struct at its zero value. -/
def fakerShape : Record := fakerWith 0

/-- A struct type with two fields sharing the annotation label "c". -/
def dupTagShape : Record :=
  [{ name := "A", tag := "c", kind := .stringK, canSet := true, value := .vstr "" },
   { name := "B", tag := "c", kind := .stringK, canSet := true, value := .vstr "" }]

/-- A cursor that yields no rows. -/
def emptyCursor : Cursor := ⟨.ok ["id"], []⟩

/-- A cursor yielding one row with an extra column the faker type does not
model, carrying a non-null value. -/
def extraCursor : Cursor := ⟨.ok ["id", "extra"], [.ok [.goInt64 7, .goInt64 9]]⟩

/-- A cursor yielding exactly one row with id = 7. -/
def oneRowCursor : Cursor := ⟨.ok ["id"], [.ok [.goInt64 7]]⟩

/-- A cursor yielding two rows (id = 7 then id = 9). -/
def twoRowCursor : Cursor := ⟨.ok ["id"], [.ok [.goInt64 7], .ok [.goInt64 9]]⟩

/-- A cursor yielding three rows (id = 1, 2, 3). -/
def threeRowCursor : Cursor :=
  ⟨.ok ["id"], [.ok [.goInt64 1], .ok [.goInt64 2], .ok [.goInt64 3]]⟩

/-- A hook (a counting closure) that fails on its second invocation. -/
def countingHook : Hook :=
  fun idx r => if idx = 1 then Except.error "hook failure" else Except.ok r

/-- A hook that fails unless the Id field of the instance it receives has
been populated to 7. -/
def checkHook : Hook :=
  fun _ r => if (fieldByName r "Id").value = FieldVal.vint 7 then Except.ok r
             else Except.error "field not populated"

/- Lemmas about the association-list model of Go maps. -/

/-- Removing a key removes every binding of it. -/
theorem lookupStr_removeKey_self (m : List (String × String)) (k : String) :
    lookupStr (removeKey m k) k = none := by
  induction m with
  | nil => rfl
  | cons p rest ih =>
    by_cases h : p.1 = k
    · simp only [removeKey, if_pos h]
      exact ih
    · simp only [removeKey, if_neg h, lookupStr, ih]

/-- Removing one key leaves the other keys untouched. -/
theorem lookupStr_removeKey_ne (m : List (String × String)) (k k' : String)
    (h : k' ≠ k) : lookupStr (removeKey m k) k' = lookupStr m k' := by
  induction m with
  | nil => rfl
  | cons p rest ih =>
    by_cases hp : p.1 = k
    · rw [show removeKey (p :: rest) k = removeKey rest k by simp [removeKey, hp]]
      rw [ih]
      rw [show lookupStr (p :: rest) k' = lookupStr rest k' by
        simp only [lookupStr]
        rw [if_neg]
        rw [hp]
        exact fun hh => h hh.symm]
    · simp only [removeKey, if_neg hp, lookupStr]
      by_cases hq : p.1 = k'
      · rw [if_pos hq, if_pos hq]
      · rw [if_neg hq, if_neg hq]
        exact ih

/-- Go map assignment: the inserted key reads back its new value, all other
keys are unchanged. -/
theorem lookupStr_mapInsert (m : List (String × String)) (k v k' : String) :
    lookupStr (mapInsert m k v) k' = if k' = k then some v else lookupStr m k' := by
  by_cases h : k' = k
  · rw [if_pos h, h]
    simp [mapInsert, lookupStr]
  · rw [if_neg h]
    simp only [mapInsert, lookupStr]
    rw [if_neg (fun hh => h hh.symm)]
    exact lookupStr_removeKey_ne m k k' h

/-- The two empty maps are trivially exact inverses. -/
theorem mapsInverse_nil : mapsInverse [] [] := by
  intro k v
  simp [lookupStr]

/-- Inserting a fresh pair into two inverse maps keeps them inverse. -/
theorem mapsInverse_insert (m1 m2 : List (String × String)) (n c : String)
    (hinv : mapsInverse m1 m2)
    (h1 : lookupStr m1 n = none) (h2 : lookupStr m2 c = none) :
    mapsInverse (mapInsert m1 n c) (mapInsert m2 c n) := by
  intro k v
  rw [lookupStr_mapInsert, lookupStr_mapInsert]
  by_cases hk : k = n
  · subst hk
    by_cases hv : v = c
    · subst hv
      simp
    · rw [if_pos rfl, if_neg hv]
      constructor
      · intro h
        exact absurd (Option.some.inj h).symm hv
      · intro h
        have h3 := (hinv k v).mpr h
        rw [h1] at h3
        exact Option.noConfusion h3
  · by_cases hv : v = c
    · subst hv
      rw [if_neg hk, if_pos rfl]
      constructor
      · intro h
        have h3 := (hinv k v).mp h
        rw [h2] at h3
        exact Option.noConfusion h3
      · intro h
        exact absurd (Option.some.inj h).symm hk
    · rw [if_neg hk, if_neg hv]
      exact hinv k v

/-- Membership in the annotated-field list. -/
theorem mem_annotated (f : GoField) (l : List GoField) :
    f ∈ annotated l ↔ f ∈ l ∧ ¬ f.tag = "" := by
  induction l with
  | nil => simp [annotated]
  | cons g rest ih =>
    by_cases h : g.tag = ""
    · rw [show annotated (g :: rest) = annotated rest by simp [annotated, h], ih]
      constructor
      · intro hf
        exact ⟨List.mem_cons_of_mem _ hf.1, hf.2⟩
      · rintro ⟨hmem, htag⟩
        rcases List.mem_cons.mp hmem with he | hm
        · exact absurd (he ▸ htag) (fun hc => hc h)
        · exact ⟨hm, htag⟩
    · rw [show annotated (g :: rest) = g :: annotated rest by simp [annotated, h]]
      constructor
      · intro hf
        rcases List.mem_cons.mp hf with he | hm
        · refine ⟨he ▸ List.mem_cons_self g rest, ?_⟩
          rw [he]
          exact h
        · have := ih.mp hm
          exact ⟨List.mem_cons_of_mem _ this.1, this.2⟩
      · rintro ⟨hmem, htag⟩
        rcases List.mem_cons.mp hmem with he | hm
        · rw [he]
          exact List.mem_cons_self g (annotated rest)
        · exact List.mem_cons_of_mem _ (ih.mpr ⟨hm, htag⟩)

/-- The field loop of DiscoverType keeps the two maps exact inverses as long
as every annotated field still to be processed is fresh for both maps and
the annotated fields to come have pairwise distinct names and pairwise
distinct tags. -/
theorem cacheAux_inv : ∀ (rest : List GoField) (ms : DescMaps),
    mapsInverse ms.fieldsToColumns ms.columnsToFields →
    (∀ f ∈ rest, ¬ f.tag = "" →
      lookupStr ms.fieldsToColumns f.name = none ∧
      lookupStr ms.columnsToFields f.tag = none) →
    ((annotated rest).map (fun f => f.name)).Nodup →
    ((annotated rest).map (fun f => f.tag)).Nodup →
    mapsInverse (cacheAux rest ms).fieldsToColumns (cacheAux rest ms).columnsToFields := by
  intro rest
  induction rest with
  | nil =>
    intro ms hinv _ _ _
    exact hinv
  | cons f rest ih =>
    intro ms hinv hfresh hnames htags
    by_cases htag : f.tag = ""
    · rw [show cacheAux (f :: rest) ms = cacheAux rest ms by
        simp [cacheAux, cacheStep, htag]]
      refine ih ms hinv ?_ ?_ ?_
      · intro g hg hgtag
        exact hfresh g (List.mem_cons_of_mem _ hg) hgtag
      · rw [show annotated (f :: rest) = annotated rest by simp [annotated, htag]] at hnames
        exact hnames
      · rw [show annotated (f :: rest) = annotated rest by simp [annotated, htag]] at htags
        exact htags
    · have hanno : annotated (f :: rest) = f :: annotated rest := by
        simp [annotated, htag]
      rw [hanno, List.map_cons, List.nodup_cons] at hnames htags
      rw [show cacheAux (f :: rest) ms =
            cacheAux rest ⟨mapInsert ms.fieldsToColumns f.name f.tag,
                           mapInsert ms.columnsToFields f.tag f.name⟩ by
        simp [cacheAux, cacheStep, htag]]
      refine ih _ ?_ ?_ hnames.2 htags.2
      · exact mapsInverse_insert _ _ _ _ hinv
          (hfresh f (List.mem_cons_self f rest) htag).1
          (hfresh f (List.mem_cons_self f rest) htag).2
      · intro g hg hgtag
        have hga : g ∈ annotated rest := (mem_annotated g rest).mpr ⟨hg, hgtag⟩
        have hn : ¬ g.name = f.name := by
          intro he
          exact hnames.1 (he ▸ List.mem_map_of_mem (fun x => x.name) hga)
        have ht : ¬ g.tag = f.tag := by
          intro he
          exact htags.1 (he ▸ List.mem_map_of_mem (fun x => x.tag) hga)
        constructor
        · rw [lookupStr_mapInsert, if_neg hn]
          exact (hfresh g (List.mem_cons_of_mem _ hg) hgtag).1
        · rw [lookupStr_mapInsert, if_neg ht]
          exact (hfresh g (List.mem_cons_of_mem _ hg) hgtag).2

/-- Key set of a map after removing a key. -/
theorem removeKey_keys_toFinset (m : List (String × String)) (k : String) :
    ((removeKey m k).map (fun p => p.1)).toFinset =
      ((m.map (fun p => p.1)).toFinset).erase k := by
  induction m with
  | nil => simp [removeKey]
  | cons p rest ih =>
    by_cases h : p.1 = k
    · rw [show removeKey (p :: rest) k = removeKey rest k by simp [removeKey, h]]
      rw [ih, List.map_cons, List.toFinset_cons, h]
      ext x
      simp only [Finset.mem_erase, Finset.mem_insert]
      constructor
      · intro hx
        exact ⟨hx.1, Or.inr hx.2⟩
      · rintro ⟨hne, hx | hx⟩
        · exact absurd hx hne
        · exact ⟨hne, hx⟩
    · rw [show removeKey (p :: rest) k = p :: removeKey rest k by simp [removeKey, h]]
      rw [List.map_cons, List.toFinset_cons, ih, List.map_cons, List.toFinset_cons]
      rw [Finset.erase_insert_of_ne h]

/-- Key set of a map after a Go map assignment. -/
theorem mapInsert_keys_toFinset (m : List (String × String)) (k v : String) :
    ((mapInsert m k v).map (fun p => p.1)).toFinset =
      insert k ((m.map (fun p => p.1)).toFinset) := by
  rw [mapInsert, List.map_cons, List.toFinset_cons, removeKey_keys_toFinset]
  ext x
  simp only [Finset.mem_insert, Finset.mem_erase]
  constructor
  · rintro (hx | hx)
    · exact Or.inl hx
    · exact Or.inr hx.2
  · rintro (hx | hx)
    · exact Or.inl hx
    · by_cases hxk : x = k
      · exact Or.inl hxk
      · exact Or.inr ⟨hxk, hx⟩

/-- Key set of columnsToFields after the field loop: the keys already
present plus the tags of the annotated fields processed. -/
theorem cacheAux_ctf_keys : ∀ (rest : List GoField) (ms : DescMaps),
    (((cacheAux rest ms).columnsToFields).map (fun p => p.1)).toFinset =
      (ms.columnsToFields.map (fun p => p.1)).toFinset ∪
        ((annotated rest).map (fun f => f.tag)).toFinset := by
  intro rest
  induction rest with
  | nil =>
    intro ms
    simp [cacheAux, annotated]
  | cons f rest ih =>
    intro ms
    by_cases htag : f.tag = ""
    · rw [show cacheAux (f :: rest) ms = cacheAux rest ms by
        simp [cacheAux, cacheStep, htag]]
      rw [show annotated (f :: rest) = annotated rest by simp [annotated, htag]]
      exact ih ms
    · rw [show cacheAux (f :: rest) ms =
            cacheAux rest ⟨mapInsert ms.fieldsToColumns f.name f.tag,
                           mapInsert ms.columnsToFields f.tag f.name⟩ by
        simp [cacheAux, cacheStep, htag]]
      rw [ih, show annotated (f :: rest) = f :: annotated rest by simp [annotated, htag]]
      rw [List.map_cons, List.toFinset_cons]
      show ((mapInsert ms.columnsToFields f.tag f.name).map (fun p => p.1)).toFinset ∪ _ = _
      rw [mapInsert_keys_toFinset, Finset.insert_union, Finset.union_insert]

/-- Key set of fieldsToColumns after the field loop: the keys already
present plus the names of the annotated fields processed. -/
theorem cacheAux_ftc_keys : ∀ (rest : List GoField) (ms : DescMaps),
    (((cacheAux rest ms).fieldsToColumns).map (fun p => p.1)).toFinset =
      (ms.fieldsToColumns.map (fun p => p.1)).toFinset ∪
        ((annotated rest).map (fun f => f.name)).toFinset := by
  intro rest
  induction rest with
  | nil =>
    intro ms
    simp [cacheAux, annotated]
  | cons f rest ih =>
    intro ms
    by_cases htag : f.tag = ""
    · rw [show cacheAux (f :: rest) ms = cacheAux rest ms by
        simp [cacheAux, cacheStep, htag]]
      rw [show annotated (f :: rest) = annotated rest by simp [annotated, htag]]
      exact ih ms
    · rw [show cacheAux (f :: rest) ms =
            cacheAux rest ⟨mapInsert ms.fieldsToColumns f.name f.tag,
                           mapInsert ms.columnsToFields f.tag f.name⟩ by
        simp [cacheAux, cacheStep, htag]]
      rw [ih, show annotated (f :: rest) = f :: annotated rest by simp [annotated, htag]]
      rw [List.map_cons, List.toFinset_cons]
      show ((mapInsert ms.fieldsToColumns f.name f.tag).map (fun p => p.1)).toFinset ∪ _ = _
      rw [mapInsert_keys_toFinset, Finset.insert_union, Finset.union_insert]

/-- C7 (counterexample): the claim extends the exact-inverse invariant to
types with two or more fields declaring the same annotation label.  For the
concrete type with fields A and B both tagged "c", fieldsToColumns holds
both A and B while columnsToFields keeps only the last writer B, so the two
maps built by DiscoverType are not exact inverses: the entry A maps to c in
one direction with no matching entry back. -/
theorem c7_counterexample :
    ¬ mapsInverse (cacheType dupTagShape).fieldsToColumns
        (cacheType dupTagShape).columnsToFields := by
  intro h
  have h1 := (h "A" "c").mp (by rfl)
  exact absurd h1 (by decide)

/-- C7 (amended): for every Record Type whose annotated fields declare
pairwise distinct annotation labels (field names are pairwise distinct in
any Go struct), the field-name-to-column-name map and the
column-name-to-field-name map built by DiscoverType are exact inverses;
with a duplicated label the invariant fails (see the counterexample). -/
theorem c7_inverse_of_distinct_tags (r : Record)
    (hnames : ((annotated r).map (fun f => f.name)).Nodup)
    (htags : ((annotated r).map (fun f => f.tag)).Nodup) :
    mapsInverse (cacheType r).fieldsToColumns (cacheType r).columnsToFields :=
  cacheAux_inv r ⟨[], []⟩ mapsInverse_nil (fun _ _ _ => ⟨rfl, rfl⟩) hnames htags

/-- C7 (witness): the inverse invariant holds for the faker test type. -/
theorem c7_witness :
    mapsInverse (cacheType fakerShape).fieldsToColumns
      (cacheType fakerShape).columnsToFields :=
  c7_inverse_of_distinct_tags fakerShape (by decide) (by decide)

/-- C8: for every Record Type with at least one annotated field, ColumnsFor
returns exactly the set of annotation labels declared on its annotated
fields and FieldsFor returns exactly those fields names; a field with an
empty or absent annotation (tag value "") appears in neither. -/
theorem c8_discovery_exact_sets (b : Bool) (r : Record)
    (hann : ∃ f ∈ r, ¬ f.tag = "") :
    (∃ cs, ColumnsFor (Sample.structS b r) = Except.ok cs ∧
      cs.toFinset = ((annotated r).map (fun f => f.tag)).toFinset) ∧
    (∃ fs, FieldsFor (Sample.structS b r) = Except.ok fs ∧
      fs.toFinset = ((annotated r).map (fun f => f.name)).toFinset) := by
  refine ⟨⟨_, rfl, ?_⟩, ⟨_, rfl, ?_⟩⟩
  · have h := cacheAux_ctf_keys r ⟨[], []⟩
    simpa [cacheType] using h
  · have h := cacheAux_ftc_keys r ⟨[], []⟩
    simpa [cacheType] using h

/-- C8 (witness): instantiated at the faker test type. -/
theorem c8_witness :
    (∃ cs, ColumnsFor (Sample.structS false fakerShape) = Except.ok cs ∧
      cs.toFinset = ((annotated fakerShape).map (fun f => f.tag)).toFinset) ∧
    (∃ fs, FieldsFor (Sample.structS false fakerShape) = Except.ok fs ∧
      fs.toFinset = ((annotated fakerShape).map (fun f => f.name)).toFinset) :=
  c8_discovery_exact_sets false fakerShape (by decide)

/-- C1 (counterexample): the current Sync (src/cartographer.go lines
382-428) performs no row-count check at all.  Against the zero-row cursor it
returns no error (instead of the claimed UnexpectedRowCount failure), and
against a two-row cursor it writes both rows into the caller's record (last
row wins) and again returns no error, so the record is not left unmodified
either. -/
theorem c1_counterexample :
    syncGo emptyCursor (Sample.structS true (fakerWith 5)) [] =
      GoResult.ret (Sample.structS true (fakerWith 5), none) ∧
    syncGo twoRowCursor (Sample.structS true (fakerWith 5)) [] =
      GoResult.ret (Sample.structS true (fakerWith 9), none) := ⟨rfl, rfl⟩

/-- C1 (amended): only the historical Sync (src/unnamed/part_002 lines
161-208) checks the row count: whenever its call to Map succeeds with a
result count other than one, it fails with the UnexpectedRowCount error and
returns with the caller's record untouched. -/
theorem c1_sync_historical_row_count (rows : Cursor) (o : Sample)
    (hooks : List Hook) (rs : List Record)
    (hmap : mapOld rows o hooks = GoResult.ret (rs, none))
    (hn : rs.length ≠ 1) :
    syncOld rows o hooks = GoResult.ret (o, none, some syncRowCountMsg) := by
  simp only [syncOld, hmap]
  rw [if_pos hn]

/-- C1 (witness): the historical Sync against the zero-row cursor. -/
theorem c1_witness :
    syncOld emptyCursor (Sample.structS true (fakerWith 5)) [] =
      GoResult.ret (Sample.structS true (fakerWith 5), none, some syncRowCountMsg) :=
  c1_sync_historical_row_count _ _ _ [] rfl (by decide)

/-- C2 helper: FieldByName on a struct none of whose fields carries the
requested name yields the invalid reflect.Value. -/
theorem fieldByName_not_found (r : Record) (n : String)
    (h : ∀ f ∈ r, ¬ f.name = n) : fieldByName r n = invalidField := by
  induction r with
  | nil => rfl
  | cons g rest ih =>
    rw [show fieldByName (g :: rest) n = fieldByName rest n by
      simp [fieldByName, h g (List.mem_cons_self g rest)]]
    exact ih (fun f hf => h f (List.mem_cons_of_mem g hf))

/-- C2 (counterexample): the claim says an unmatched column with a non-null
value is silently ignored and Map completes successfully.  On the concrete
cursor selecting the extra column "extra" with value 9 against the faker
type, the current Map instead aborts with the "Failed to set field" error
and returns no instances. -/
theorem c2_counterexample :
    mapGo extraCursor (Sample.structS false fakerShape) [] =
      GoResult.ret ([], some "Failed to set field") := rfl

/-- C2 (amended): in the current Map, a column name absent from
columnsToFields resolves to the empty field name and hence to the invalid
reflect.Value; for every non-null buffer value in such a column, the column
step fails with the "Failed to set field" error, which aborts Map.  (Only a
null value in an unmatched column is skipped silently; the silent-ignore
behavior the claim describes belongs to the historical Map variants, whose
settability guard skips the invalid field.) -/
theorem c2_unmatched_column_fails (ctf : List (String × String)) (r : Record)
    (col : String) (v : GoValue)
    (habs : lookupStr ctf col = none)
    (hnames : ∀ f ∈ r, ¬ f.name = "")
    (hv : ¬ v = GoValue.null) :
    applyColumnGo ctf r col v = Outcome.goError "Failed to set field" := by
  unfold applyColumnGo
  rw [habs]
  simp only [Option.getD_none]
  rw [fieldByName_not_found r "" hnames]
  unfold setFieldValue
  rw [if_neg hv]
  rfl

/-- C2 (witness): the unmatched column "extra" of the extra-column cursor
against the faker descriptor. -/
theorem c2_witness :
    applyColumnGo [("id", "Id")] fakerShape "extra" (GoValue.goInt64 9) =
      Outcome.goError "Failed to set field" :=
  c2_unmatched_column_fails _ _ _ _ rfl (by decide) (by simp)

/-- C3 (counterexample): a stateful hook failing on its second invocation,
against a three-row cursor: the current Map returns the hook's error
TOGETHER WITH the one-element list accumulated from the first row, not the
empty list the claim requires. -/
theorem c3_counterexample :
    mapGo threeRowCursor (Sample.structS false fakerShape) [countingHook] =
      GoResult.ret ([fakerWith 1], some "hook failure") := rfl

/-- C3 (amended): when the hooks fail while a row is being processed, the
current Map returns the hook's error together with the list of instances
accumulated from the earlier rows, exactly as accumulated — the partial list
is returned to the caller, not discarded.  (Rows after the failing one are
never processed.) -/
theorem c3_partial_list_returned (o : Sample) (hooks : List Hook)
    (cols : List String) (vals : List GoValue)
    (rest : List (Except String (List GoValue))) (idx : Nat)
    (acc : List Record) (shape : Record) (e : String)
    (hdisc : discoverType o = Except.ok shape)
    (hhook : runHooks hooks idx (zeroReplica shape) = Except.error e) :
    mapLoopGo o hooks cols (Except.ok vals :: rest) idx acc =
      GoResult.ret (acc, some e) := by
  simp only [mapLoopGo, hdisc, hhook]

/-- A hook that always fails. -/
def boomHook : Hook := fun _ _ => Except.error "boom"

/-- C3 (witness): with a non-empty accumulator, the loop of the current Map
returns that accumulator unchanged next to the hook error. -/
theorem c3_witness :
    mapLoopGo (Sample.structS false fakerShape) [boomHook] ["id"]
      [Except.ok [GoValue.goInt64 1]] 1 [fakerShape] =
      GoResult.ret ([fakerShape], some "boom") :=
  c3_partial_list_returned _ _ _ _ _ _ _ _ _ rfl rfl

/-- C4 (counterexample): a hook that succeeds exactly when the Id field of
the instance it receives has been populated to the row value 7.  Under the
claim (hooks run after population, receiving the populated instance) the
one-row Map would succeed; the current Map instead hands the hook the
zero-valued replica at CreateReplica time and fails with the hook's error,
while the historical Map (hooks after population) succeeds. -/
theorem c4_counterexample :
    mapGo oneRowCursor (Sample.structS false fakerShape) [checkHook] =
      GoResult.ret ([], some "field not populated") ∧
    mapOld oneRowCursor (Sample.structS false fakerShape) [checkHook] =
      GoResult.ret ([fakerWith 7], none) := ⟨rfl, rfl⟩

/-- C4 (amended): in the current Map the hooks are invoked in registration
order at replica creation, BEFORE any field is populated: on a one-row
cursor the hooks transform the zero-valued replica first, and the row's
column values are applied afterwards to the hooks' output, which is what
Map returns. -/
theorem c4_hooks_before_population (b : Bool) (shape : Record)
    (hooks : List Hook) (cols : List String) (vals : List GoValue)
    (r r2 : Record)
    (hhook : runHooks hooks 0 (zeroReplica shape) = Except.ok r)
    (hrow : applyRowGo (cacheType shape).columnsToFields cols vals r =
      GoResult.ret (r2, none)) :
    mapGo ⟨Except.ok cols, [Except.ok vals]⟩ (Sample.structS b shape) hooks =
      GoResult.ret ([r2], none) := by
  simp only [mapGo, mapLoopGo, discoverType, hhook, hrow, List.nil_append]

/-- C4 (witness): with no hooks the replica is the zero replica and the
populated row is returned. -/
theorem c4_witness :
    mapGo ⟨Except.ok ["id"], [Except.ok [GoValue.goInt64 3]]⟩
      (Sample.structS false fakerShape) [] =
      GoResult.ret ([fakerWith 3], none) :=
  c4_hooks_before_population false fakerShape [] ["id"] [GoValue.goInt64 3]
    (zeroReplica fakerShape) (fakerWith 3) rfl rfl

/-- C5: the claim (and spec section 4.3/9) requires a malformed textual
number fed to a floating-point target to fail with CoercionFailed.  The code
instead discards the strconv.ParseFloat error (src/cartographer.go line 542)
and stores zero: on the byte source "abc", parseFloat returns 0 and
setFieldValue sets the float64 field to 0 with no error.  The spec itself
flags this silent swallowing as a defect of the code (section 9), so the
code, not the claim, is wrong. -/
theorem c5_float_parse_silently_zero :
    parseFloatLit "abc" = none ∧
    parseFloat (GoValue.bytes "abc") = Parsed.ok 0 ∧
    setFieldValue
      { name := "Price", tag := "price", kind := GoKind.float64K,
        canSet := true, value := FieldVal.vfloat 0 } (GoValue.bytes "abc") =
      Outcome.ok
        { name := "Price", tag := "price", kind := GoKind.float64K,
          canSet := true, value := FieldVal.vfloat 0 } :=
  ⟨rfl, rfl, rfl⟩

/-- C6: the claim (and spec section 4.3) requires a non-boolean source
coerced into a boolean target to produce a recoverable coercion-fault
error.  The code instead runs the unchecked assertion o.(bool)
(src/cartographer.go line 552), which panics: on the int64 source 1 into a
bool field, setFieldValue panics rather than returning an error value.  The
spec itself flags the unguarded type mismatch as a defect to fix (sections
4.3 and 7), so the code, not the claim, is wrong. -/
theorem c6_bool_coercion_panics :
    parseBool (GoValue.goInt64 1) = Parsed.panicked (assertFailMsg "bool") ∧
    setFieldValue
      { name := "Flag", tag := "flag", kind := GoKind.boolK,
        canSet := true, value := FieldVal.vbool false } (GoValue.goInt64 1) =
      Outcome.panicked (assertFailMsg "bool") :=
  ⟨rfl, rfl⟩

/-- C9: the current Map runs DiscoverType only inside CreateReplica, i.e.
only once a row is materialized.  For EVERY sample value (struct or not)
Map over a zero-row cursor returns the empty result list and no error, and
for a non-struct sample the NotAStructure error surfaces only when the
cursor yields a row. -/
theorem c9_zero_rows_no_validation (o : Sample) (hooks : List Hook)
    (cols : List String) (t : String) (vals : List GoValue) :
    mapGo ⟨Except.ok cols, []⟩ o hooks = GoResult.ret ([], none) ∧
    mapGo ⟨Except.ok cols, [Except.ok vals]⟩ (Sample.scalarS t) hooks =
      GoResult.ret ([], some (notAStructMsg t)) := ⟨rfl, rfl⟩

/-- C10: for every settable field whose kind is none of string, int
(platform-width), float32, float64, bool or struct — e.g. int64, int8,
uint or slice fields — setFieldValue with any non-null source hits no case
of the switch: it leaves the field exactly as it was (its zero value, for a
fresh replica) and returns no error, so such values are silently dropped. -/
theorem c10_unhandled_kind_silent (f : GoField) (v : GoValue)
    (hset : f.canSet = true) (hv : ¬ v = GoValue.null)
    (h1 : ¬ f.kind = GoKind.stringK) (h2 : ¬ f.kind = GoKind.intK)
    (h3 : ¬ f.kind = GoKind.float32K) (h4 : ¬ f.kind = GoKind.float64K)
    (h5 : ¬ f.kind = GoKind.boolK) (h6 : ¬ f.kind = GoKind.structK) :
    setFieldValue f v = Outcome.ok f := by
  cases hk : f.kind
  case stringK => exact absurd hk h1
  case intK => exact absurd hk h2
  case float32K => exact absurd hk h3
  case float64K => exact absurd hk h4
  case boolK => exact absurd hk h5
  case structK => exact absurd hk h6
  all_goals simp [setFieldValue, hv, hset, hk]

/-- C10 (witness): an int64 field silently keeps its zero value on a
non-null int64 source. -/
theorem c10_witness :
    setFieldValue
      { name := "N", tag := "n", kind := GoKind.int64K,
        canSet := true, value := FieldVal.vint 0 } (GoValue.goInt64 7) =
      Outcome.ok
        { name := "N", tag := "n", kind := GoKind.int64K,
          canSet := true, value := FieldVal.vint 0 } :=
  c10_unhandled_kind_silent _ _ rfl (by simp) (by simp) (by simp) (by simp)
    (by simp) (by simp) (by simp)
